import Mathlib

/-!
Shallow embedding of the toniowm window-manager core (src/state.rs,
src/vector.rs, src/commands.rs, src/window_manager.rs) and proofs about it.

Rust `i32` is modelled as `Int` (the registry arithmetic is pure; where the
`i32::MAX` sentinel of `focus_closest_client` interacts with overflow, the
theorems carry an explicit bound hypothesis).  `x::Window` ids (u32 resource
ids) are modelled as `Nat`.  `indexmap::IndexMap` is modelled as an
insertion-ordered association list `List (K × V)`.  Rust methods that can
panic (the `unwrap` of the active-workspace lookup) return `Option`, with
`none` standing for the panic; fallible methods return `Except Error`.
-/

deriving instance DecidableEq for Except

namespace Toniowm

/-- Model of an `x::Window` id: a `u32` resource id. `x::Window::none()` is id 0. -/
abbrev Window := Nat

/-- `Vector2D` from src/vector.rs: `{x: i32, y: i32}`. -/
structure Vector2D where
  x : Int
  y : Int
  deriving DecidableEq

/-- Componentwise addition (`impl Add for Vector2D`). -/
def Vector2D.add (a b : Vector2D) : Vector2D := ⟨a.x + b.x, a.y + b.y⟩

/-- Componentwise subtraction (`impl Sub for Vector2D`). -/
def Vector2D.sub (a b : Vector2D) : Vector2D := ⟨a.x - b.x, a.y - b.y⟩

/-- Componentwise maximum (`Vector2D::max` in src/vector.rs). -/
def Vector2D.max (a b : Vector2D) : Vector2D := ⟨Max.max a.x b.x, Max.max a.y b.y⟩

instance : Add Vector2D := ⟨Vector2D.add⟩
instance : Sub Vector2D := ⟨Vector2D.sub⟩

/-- `MIN_CLIENT_SIZE` from src/state.rs. -/
def MIN_CLIENT_SIZE : Vector2D := ⟨32, 32⟩

/-- `state::Error` from src/state.rs. -/
inductive Error where
  | clientNotFound
  | clientAlreadyExists
  | workspaceAlreadyExists
  | workspaceNotFound
  deriving DecidableEq

/-- `Client` from src/state.rs. -/
structure Client where
  window : Window
  pos : Vector2D
  size : Vector2D
  deriving DecidableEq

/-- `Workspace` from src/state.rs: a name and an insertion-ordered client map. -/
structure Workspace where
  name : String
  clients : List (Window × Client)
  deriving DecidableEq

/-- `State` from src/state.rs. -/
structure State where
  root : Window
  child : Window
  workspaces : List (String × Workspace)
  active_workspace : Nat
  focused : Option Window
  last_focused : Option Window
  drag_start_pos : Vector2D
  drag_start_frame_pos : Vector2D
  deriving DecidableEq

/-- `commands::Direction` as consumed by src/state.rs. -/
inductive Direction where
  | east
  | west
  | north
  | south
  deriving DecidableEq

/-- `commands::WindowSelector` as consumed by src/state.rs (the two variants
its `match` arms handle). -/
inductive WindowSelector where
  | focused
  | window (id : Window)
  deriving DecidableEq

/-- `commands::WorkspaceSelector` as consumed by src/state.rs (the two
variants its `match` arms handle). -/
inductive WorkspaceSelector where
  | index (i : Nat)
  | name (n : String)
  deriving DecidableEq

section AssocMap

variable {K V : Type} [DecidableEq K]

/-- `IndexMap::get`: value stored at a key, scanning in insertion order. -/
def findEntry? : List (K × V) → K → Option V
  | [], _ => none
  | (k', v) :: rest, k => if k' = k then some v else findEntry? rest k

/-- `IndexMap::contains_key`. -/
def containsKey (m : List (K × V)) (k : K) : Bool := (findEntry? m k).isSome

/-- `IndexMap::insert`: replace the value in place if the key is present,
otherwise append a fresh entry at the end. -/
def insertKV : List (K × V) → K → V → List (K × V)
  | [], k, v => [(k, v)]
  | (k', v') :: rest, k, v =>
    if k' = k then (k, v) :: rest else (k', v') :: insertKV rest k v

/-- `IndexMap::shift_remove`: drop the entry with the given key, preserving
the order of the remaining entries. -/
def removeKey (m : List (K × V)) (k : K) : List (K × V) :=
  m.filter (fun p => decide (p.1 ≠ k))

/-- `IndexMap::get_index_of`: position of a key in insertion order. -/
def indexOfKey : List (K × V) → K → Option Nat
  | [], _ => none
  | (k', _) :: rest, k =>
    if k' = k then some 0 else (indexOfKey rest k).map (· + 1)

/-- Keys of the map in insertion order. -/
def keysOf (m : List (K × V)) : List K := m.map Prod.fst

end AssocMap

/-- Replace the element at an index (no-op when out of range); used to model
mutation through `IndexMap::get_index_mut`. -/
def modifyAt {α : Type} : List α → Nat → (α → α) → List α
  | [], _, _ => []
  | a :: rest, 0, f => f a :: rest
  | a :: rest, i + 1, f => a :: modifyAt rest i f

/-- `State::active_workspace_clients`: `none` models the `unwrap` panic when
`active_workspace` is out of range. -/
def State.activeWorkspaceClients? (s : State) : Option (List (Window × Client)) :=
  (s.workspaces.get? s.active_workspace).map (fun p => p.2.clients)

/-- Write back the active workspace's client map (mutation through
`active_workspace_clients_mut`). -/
def State.setActiveClients (s : State) (cs : List (Window × Client)) : State :=
  { s with workspaces :=
      modifyAt s.workspaces s.active_workspace (fun p => (p.1, { p.2 with clients := cs })) }

/-- `State::add_workspace` from src/state.rs: default name is
`workspaces.len().to_string()`; fails on a name collision. -/
def State.add_workspace (s : State) (name : Option String) : State × Except Error Workspace :=
  let n := match name with
    | some n => n
    | none => toString s.workspaces.length
  if containsKey s.workspaces n then (s, .error .workspaceAlreadyExists)
  else
    let workspace : Workspace := ⟨n, []⟩
    ({ s with workspaces := insertKV s.workspaces n workspace }, .ok workspace)

/-- `State::rename_workspace` from src/state.rs: resolve the workspace by
index or name, then overwrite both the map key and the stored name in place
(no collision check is performed). -/
def State.rename_workspace (s : State) (selector : WorkspaceSelector) (name : String) :
    State × Except Error Unit :=
  let found : Option (Nat × (String × Workspace)) := match selector with
    | .index i => (s.workspaces.get? i).map (fun p => (i, p))
    | .name n =>
      (indexOfKey s.workspaces n).bind fun i => (s.workspaces.get? i).map (fun p => (i, p))
  match found with
  | none => (s, .error .workspaceNotFound)
  | some (i, p) =>
    ({ s with workspaces := s.workspaces.set i (name, { p.2 with name := name }) }, .ok ())

/-- `State::activate_workspace` from src/state.rs: an `Index` selector is
accepted as-is (no bounds check); a `Name` selector is resolved through
`get_index_of`. -/
def State.activate_workspace (s : State) (selector : WorkspaceSelector) :
    State × Except Error Nat :=
  let index := match selector with
    | .index i => some i
    | .name n => indexOfKey s.workspaces n
  match index with
  | some i => ({ s with active_workspace := i }, .ok i)
  | none => (s, .error .workspaceNotFound)

/-- `State::workspaces` from src/state.rs: the workspaces in insertion order. -/
def State.workspaces_list (s : State) : List Workspace := s.workspaces.map Prod.snd

/-- `State::add_client` from src/state.rs: rejects a window already present
in the active workspace, otherwise inserts there. -/
def State.add_client (s : State) (window : Window) (pos size : Vector2D) :
    Option (State × Except Error Client) :=
  match s.activeWorkspaceClients? with
  | none => none
  | some cs =>
    if containsKey cs window then some (s, .error .clientAlreadyExists)
    else
      let client : Client := ⟨window, pos, size⟩
      some (s.setActiveClients (insertKV cs window client), .ok client)

/-- `State::remove_client` from src/state.rs: `shift_remove` from the active
workspace; clearing `focused` (only) when the removed window was focused. -/
def State.remove_client (s : State) (window : Window) : Option (State × Except Error Unit) :=
  match s.activeWorkspaceClients? with
  | none => none
  | some cs =>
    if containsKey cs window then
      let s1 := s.setActiveClients (removeKey cs window)
      some (if s.focused = some window then { s1 with focused := none } else s1, .ok ())
    else some (s, .error .clientNotFound)

/-- `State::drag_client` from src/state.rs. -/
def State.drag_client (s : State) (window : Window) (mouse_pos : Vector2D) :
    Option (State × Except Error Client) :=
  let new_pos := s.drag_start_frame_pos + mouse_pos - s.drag_start_pos
  match s.activeWorkspaceClients? with
  | none => none
  | some cs =>
    match findEntry? cs window with
    | none => some (s, .error .clientNotFound)
    | some c =>
      let c1 := { c with pos := new_pos }
      some (s.setActiveClients (insertKV cs window c1), .ok c1)

/-- `State::drag_resize_client` from src/state.rs: the new size is
`(mouse_pos - client.pos).max(MIN_CLIENT_SIZE)`. -/
def State.drag_resize_client (s : State) (window : Window) (mouse_pos : Vector2D) :
    Option (State × Except Error Client) :=
  match s.activeWorkspaceClients? with
  | none => none
  | some cs =>
    match findEntry? cs window with
    | none => some (s, .error .clientNotFound)
    | some c =>
      let c1 := { c with size := (mouse_pos - c.pos).max MIN_CLIENT_SIZE }
      some (s.setActiveClients (insertKV cs window c1), .ok c1)

/-- `State::teleport_client` from src/state.rs. -/
def State.teleport_client (s : State) (window : Window) (pos : Vector2D) :
    Option (State × Except Error Client) :=
  match s.activeWorkspaceClients? with
  | none => none
  | some cs =>
    match findEntry? cs window with
    | none => some (s, .error .clientNotFound)
    | some c =>
      let c1 := { c with pos := pos }
      some (s.setActiveClients (insertKV cs window c1), .ok c1)

/-- `State::set_focused` from src/state.rs: rotates the current focus into
`last_focused`. -/
def State.set_focused (s : State) (window : Option Window) : State :=
  { s with last_focused := s.focused, focused := window }

/-- `State::focus_client` from src/state.rs: focusing the root window clears
the focus (through `set_focused`), otherwise the window must live in the
active workspace. -/
def State.focus_client (s : State) (window : Window) : Option (State × Except Error Unit) :=
  if s.root = window then some (s.set_focused none, .ok ())
  else
    match s.activeWorkspaceClients? with
    | none => none
    | some cs =>
      if containsKey cs window then some (s.set_focused (some window), .ok ())
      else some (s, .error .clientNotFound)

/-- `State::select_client` from src/state.rs. -/
def State.select_client (s : State) (selector : WindowSelector) : Option (Except Error Client) :=
  match selector with
  | .focused =>
    match s.focused with
    | none => some (.error .clientNotFound)
    | some w =>
      (s.activeWorkspaceClients?).map fun cs =>
        match findEntry? cs w with
        | some c => .ok c
        | none => .error .clientNotFound
  | .window w =>
    (s.activeWorkspaceClients?).map fun cs =>
      match findEntry? cs w with
      | some c => .ok c
      | none => .error .clientNotFound

/-- Squared Euclidean distance between two clients' positions, as computed in
`State::focus_closest_client` (`dx.pow(2) + dy.pow(2)`). -/
def sqDist (c ref : Client) : Int := (c.pos.x - ref.pos.x) ^ 2 + (c.pos.y - ref.pos.y) ^ 2

/-- `std::i32::MAX`, the initial `min_distance` of `focus_closest_client`. -/
def i32Max : Int := 2147483647

/-- One iteration of the `focus_closest_client` loop: skip the reference
window, then per direction keep the candidate iff it is strictly on the
correct side and strictly closer than the current minimum. -/
def closestStep (ref : Client) (dir : Direction) (acc : Int × Option Client) (c : Client) :
    Int × Option Client :=
  if c.window = ref.window then acc
  else
    let distance := sqDist c ref
    match dir with
    | .east => if c.pos.x > ref.pos.x ∧ distance < acc.1 then (distance, some c) else acc
    | .west => if c.pos.x < ref.pos.x ∧ distance < acc.1 then (distance, some c) else acc
    | .north => if c.pos.y < ref.pos.y ∧ distance < acc.1 then (distance, some c) else acc
    | .south => if c.pos.y > ref.pos.y ∧ distance < acc.1 then (distance, some c) else acc

/-- `State::focus_closest_client` from src/state.rs. -/
def State.focus_closest_client (s : State) (selector : WindowSelector) (direction : Direction) :
    Option (State × Except Error (Option Client)) :=
  match s.select_client selector with
  | none => none
  | some (.error e) => some (s, .error e)
  | some (.ok client) =>
    match s.activeWorkspaceClients? with
    | none => none
    | some cs =>
      let res := (cs.map Prod.snd).foldl (closestStep client direction) (i32Max, none)
      match res.2 with
      | none => some (s, .ok none)
      | some closest => some (s.set_focused (some closest.window), .ok (some closest))

/-- `impl Default for State`: zeroed fields, then one `add_workspace(None)`. -/
def State.default : State :=
  let s : State := ⟨0, 0, [], 0, none, none, ⟨0, 0⟩, ⟨0, 0⟩⟩
  (s.add_workspace none).1

/-- State after a step that returns `Option (State × α)`, falling back to the
input state when the step returns `none`; used to build concrete scenarios. -/
def stepState {α : Type} (s : State) (r : Option (State × α)) : State :=
  (r.map Prod.fst).getD s

/-- Project the `Ok` client out of a registry result. -/
def okClient? : Except Error Client → Option Client
  | .ok c => some c
  | .error _ => none

/-- The default state after two `add_workspace(None)` calls. -/
def twoDefaultAdds : State := ((State.default.add_workspace none).1.add_workspace none).1

/-- The default state with a second workspace named "A". -/
def stateWithTwoWorkspaces : State := (State.default.add_workspace (some "A")).1

/-- The default state with one client: window 123 at (0,0), size 100×100. -/
def stateWithClient : State :=
  stepState State.default (State.default.add_client 123 ⟨0, 0⟩ ⟨100, 100⟩)

/-- A state whose root window is 99 and whose focused window is 7. -/
def rootFocusState : State := { State.default with root := 99, focused := some 7 }

namespace cmds

/-- `commands::CardinalDirection` from src/commands.rs. -/
inductive CardinalDirection where
  | east
  | west
  | north
  | south
  deriving DecidableEq

/-- `commands::CycleDirection` from src/commands.rs. -/
inductive CycleDirection where
  | next
  | prev
  deriving DecidableEq

/-- `commands::WindowSelector` from src/commands.rs (the full wire schema). -/
inductive WindowSelector where
  | focused
  | window (id : Nat)
  | closest (d : CardinalDirection)
  | cycle (d : CycleDirection)
  deriving DecidableEq

/-- `commands::WorkspaceSelector` from src/commands.rs (the full wire schema). -/
inductive WorkspaceSelector where
  | index (i : Nat)
  | name (n : String)
  | cycle (d : CycleDirection)
  deriving DecidableEq

/-- `commands::Command` from src/commands.rs. -/
inductive Command where
  | quit
  | focus (selector : WindowSelector)
  | close (selector : WindowSelector)
  | addWorkspace (name : Option String)
  | renameWorkspace (selector : WorkspaceSelector) (name : String)
  | activateWorkspace (selector : WorkspaceSelector)
  | setBorderWidth (width : Nat)
  | setBorderColor (color : Nat)
  | setFocusedBorderColor (color : Nat)
  deriving DecidableEq

end cmds

/-- JSON value tree, the target of the wire serialization.  The numeric
payloads of `Command` are all unsigned integers (`u32`/`usize`), so a `Nat`
payload suffices. -/
inductive Json where
  | null
  | num (n : Nat)
  | str (s : String)
  | obj (fields : List (String × Json))

/-- Modelled from the spec: the IPC wire format (§6) is the tagged
`serde_json` serialization of the `Command` enum produced by the derived
`Serialize` implementation (library code, not under src/): a unit variant is
its name as a string, a data-carrying variant is a one-field object keyed by
the variant name, struct fields keep their names, and `Option` is
null-or-value.  Encoder for `CardinalDirection`. -/
def encodeCardinal : cmds.CardinalDirection → Json
  | .east => .str "East"
  | .west => .str "West"
  | .north => .str "North"
  | .south => .str "South"

/-- Modelled from the spec: encoder for `CycleDirection` (see
`encodeCardinal`). -/
def encodeCycle : cmds.CycleDirection → Json
  | .next => .str "Next"
  | .prev => .str "Prev"

/-- Modelled from the spec: encoder for `WindowSelector` (see
`encodeCardinal`). -/
def encodeWindowSelector : cmds.WindowSelector → Json
  | .focused => .str "Focused"
  | .window id => .obj [("Window", .num id)]
  | .closest d => .obj [("Closest", encodeCardinal d)]
  | .cycle d => .obj [("Cycle", encodeCycle d)]

/-- Modelled from the spec: encoder for `WorkspaceSelector` (see
`encodeCardinal`). -/
def encodeWorkspaceSelector : cmds.WorkspaceSelector → Json
  | .index i => .obj [("Index", .num i)]
  | .name n => .obj [("Name", .str n)]
  | .cycle d => .obj [("Cycle", encodeCycle d)]

/-- Modelled from the spec: `Option<String>` serializes as null-or-string. -/
def encodeOptString : Option String → Json
  | none => .null
  | some s => .str s

/-- Modelled from the spec: the client-side serializer
(`serde_json::to_string` in `dispatch_command`, src/client.rs) viewed at the
JSON-value level. -/
def serializeCommand : cmds.Command → Json
  | .quit => .str "Quit"
  | .focus sel => .obj [("Focus", .obj [("selector", encodeWindowSelector sel)])]
  | .close sel => .obj [("Close", .obj [("selector", encodeWindowSelector sel)])]
  | .addWorkspace name => .obj [("AddWorkspace", .obj [("name", encodeOptString name)])]
  | .renameWorkspace sel name =>
    .obj [("RenameWorkspace",
      .obj [("selector", encodeWorkspaceSelector sel), ("name", .str name)])]
  | .activateWorkspace sel =>
    .obj [("ActivateWorkspace", .obj [("selector", encodeWorkspaceSelector sel)])]
  | .setBorderWidth width => .obj [("SetBorderWidth", .obj [("width", .num width)])]
  | .setBorderColor color => .obj [("SetBorderColor", .obj [("color", .num color)])]
  | .setFocusedBorderColor color =>
    .obj [("SetFocusedBorderColor", .obj [("color", .num color)])]

/-- Modelled from the spec: decoder for `CardinalDirection`. -/
def decodeCardinal : Json → Option cmds.CardinalDirection
  | .str "East" => some .east
  | .str "West" => some .west
  | .str "North" => some .north
  | .str "South" => some .south
  | _ => none

/-- Modelled from the spec: decoder for `CycleDirection`. -/
def decodeCycle : Json → Option cmds.CycleDirection
  | .str "Next" => some .next
  | .str "Prev" => some .prev
  | _ => none

/-- Modelled from the spec: decoder for `WindowSelector`. -/
def decodeWindowSelector : Json → Option cmds.WindowSelector
  | .str "Focused" => some .focused
  | .obj [("Window", .num id)] => some (.window id)
  | .obj [("Closest", j)] => (decodeCardinal j).map .closest
  | .obj [("Cycle", j)] => (decodeCycle j).map .cycle
  | _ => none

/-- Modelled from the spec: decoder for `WorkspaceSelector`. -/
def decodeWorkspaceSelector : Json → Option cmds.WorkspaceSelector
  | .obj [("Index", .num i)] => some (.index i)
  | .obj [("Name", .str n)] => some (.name n)
  | .obj [("Cycle", j)] => (decodeCycle j).map .cycle
  | _ => none

/-- Modelled from the spec: decoder for the optional workspace name. -/
def decodeOptString : Json → Option (Option String)
  | .null => some none
  | .str s => some (some s)
  | _ => none

/-- Modelled from the spec: the server-side deserializer
(`serde_json::from_str` in `handle_client`, src/client.rs) viewed at the
JSON-value level. -/
def deserializeCommand : Json → Option cmds.Command
  | .str "Quit" => some .quit
  | .obj [("Focus", .obj [("selector", j)])] => (decodeWindowSelector j).map .focus
  | .obj [("Close", .obj [("selector", j)])] => (decodeWindowSelector j).map .close
  | .obj [("AddWorkspace", .obj [("name", j)])] => (decodeOptString j).map .addWorkspace
  | .obj [("RenameWorkspace", .obj [("selector", j), ("name", .str n)])] =>
    (decodeWorkspaceSelector j).map (fun sel => .renameWorkspace sel n)
  | .obj [("ActivateWorkspace", .obj [("selector", j)])] =>
    (decodeWorkspaceSelector j).map .activateWorkspace
  | .obj [("SetBorderWidth", .obj [("width", .num w)])] => some (.setBorderWidth w)
  | .obj [("SetBorderColor", .obj [("color", .num c)])] => some (.setBorderColor c)
  | .obj [("SetFocusedBorderColor", .obj [("color", .num c)])] =>
    some (.setFocusedBorderColor c)
  | _ => none

/-- The command alternatives matched by the Serve loop's command channel arm
in `WindowManager::run` (src/window_manager.rs). -/
inductive DCommand where
  | quit
  | focusClosest (selector : WindowSelector) (direction : Direction)
  | close (selector : WindowSelector)
  | addWorkspace (name : Option String)
  | renameWorkspace (selector : WorkspaceSelector) (name : String)
  | selectWorkspace (selector : WorkspaceSelector)
  | setBorderWidth (width : Nat)
  | setBorderColor (color : Nat)
  | setFocusedBorderColor (color : Nat)
  deriving DecidableEq

/-- The registry-level outcome of one command-channel arm of the Serve loop:
`breakLoop` for `Quit`, `ok` for success, `logged e` when the arm prints the
registry error and continues, `fatal e` when the arm propagates the registry
error with `?` out of `run`. -/
inductive HandlerOutcome where
  | breakLoop
  | ok
  | logged (e : Error)
  | fatal (e : Error)
  deriving DecidableEq

/-- The registry-level effect of the command arms of the `channel::select!`
loop in `WindowManager::run` (src/window_manager.rs).  Protocol (X11) side
effects are out of scope; `none` models a panic of the
`active_workspace_clients` unwrap.  `FocusClosest` and `Close` print their
registry errors and continue; `AddWorkspace`, `RenameWorkspace` and
`SelectWorkspace` apply `?` to the registry result, so their registry errors
escape the handler. -/
def applyCommand (s : State) (cmd : DCommand) : Option (State × HandlerOutcome) :=
  match cmd with
  | .quit => some (s, .breakLoop)
  | .focusClosest sel dir =>
    match s.focus_closest_client sel dir with
    | none => none
    | some (s', .error e) => some (s', .logged e)
    | some (s', .ok _) => some (s', .ok)
  | .close sel =>
    match s.select_client sel with
    | none => none
    | some (.error e) => some (s, .logged e)
    | some (.ok _) => some (s, .ok)
  | .addWorkspace name =>
    match s.add_workspace name with
    | (s', .ok _) => some (s', .ok)
    | (s', .error e) => some (s', .fatal e)
  | .renameWorkspace sel name =>
    match s.rename_workspace sel name with
    | (s', .ok _) => some (s', .ok)
    | (s', .error e) => some (s', .fatal e)
  | .selectWorkspace sel =>
    match s.activeWorkspaceClients? with
    | none => none
    | some _ =>
      match s.activate_workspace sel with
      | (s', .ok _) =>
        match s'.activeWorkspaceClients? with
        | none => none
        | some _ => some (s', .ok)
      | (s', .error e) => some (s', .fatal e)
  | .setBorderWidth _ =>
    match s.activeWorkspaceClients? with
    | none => none
    | some _ => some (s, .ok)
  | .setBorderColor _ =>
    match s.activeWorkspaceClients? with
    | none => none
    | some _ => some (s, .ok)
  | .setFocusedBorderColor _ => some (s, .ok)

/-- Registry states reachable from the default state through the public
`State` operations (including the two public drag-anchor field writes the
dispatch loop performs). -/
inductive Reachable : State → Prop where
  | default_state : Reachable State.default
  | add_workspace (s : State) (name : Option String) :
      Reachable s → Reachable (s.add_workspace name).1
  | rename_workspace (s : State) (sel : WorkspaceSelector) (name : String) :
      Reachable s → Reachable (s.rename_workspace sel name).1
  | activate_workspace (s : State) (sel : WorkspaceSelector) :
      Reachable s → Reachable (s.activate_workspace sel).1
  | add_client (s : State) (w : Window) (pos size : Vector2D) (s' : State)
      (r : Except Error Client) :
      Reachable s → s.add_client w pos size = some (s', r) → Reachable s'
  | remove_client (s : State) (w : Window) (s' : State) (r : Except Error Unit) :
      Reachable s → s.remove_client w = some (s', r) → Reachable s'
  | drag_client (s : State) (w : Window) (m : Vector2D) (s' : State)
      (r : Except Error Client) :
      Reachable s → s.drag_client w m = some (s', r) → Reachable s'
  | drag_resize_client (s : State) (w : Window) (m : Vector2D) (s' : State)
      (r : Except Error Client) :
      Reachable s → s.drag_resize_client w m = some (s', r) → Reachable s'
  | teleport_client (s : State) (w : Window) (p : Vector2D) (s' : State)
      (r : Except Error Client) :
      Reachable s → s.teleport_client w p = some (s', r) → Reachable s'
  | focus_client (s : State) (w : Window) (s' : State) (r : Except Error Unit) :
      Reachable s → s.focus_client w = some (s', r) → Reachable s'
  | focus_closest_client (s : State) (sel : WindowSelector) (dir : Direction)
      (s' : State) (r : Except Error (Option Client)) :
      Reachable s → s.focus_closest_client sel dir = some (s', r) → Reachable s'
  | set_drag_start (s : State) (p q : Vector2D) :
      Reachable s → Reachable { s with drag_start_pos := p, drag_start_frame_pos := q }

/-- Every workspace's client map has pairwise-distinct window keys. -/
def ClientKeysNodup (s : State) : Prop :=
  ∀ p ∈ s.workspaces, (keysOf p.2.clients).Nodup

/-- The default state plus a workspace "A". -/
def c2sA : State := (State.default.add_workspace (some "A")).1

/-- Window 7 added to the active workspace "0". -/
def c2sB : State := stepState c2sA (c2sA.add_client 7 ⟨0, 0⟩ ⟨10, 10⟩)

/-- Workspace "A" activated. -/
def c2sC : State := (c2sB.activate_workspace (.index 1)).1

/-- Window 7 added again, now landing in workspace "A". -/
def c2sD : State := stepState c2sC (c2sC.add_client 7 ⟨1, 1⟩ ⟨10, 10⟩)

/-- The directional half-plane filter of `focus_closest_client`: is `c`
strictly on the `dir` side of `ref`? -/
def sideOK (dir : Direction) (ref c : Client) : Bool :=
  match dir with
  | .east => decide (c.pos.x > ref.pos.x)
  | .west => decide (c.pos.x < ref.pos.x)
  | .north => decide (c.pos.y < ref.pos.y)
  | .south => decide (c.pos.y > ref.pos.y)

/-- The clients of the scan that qualify: all clients other than the
reference window that lie strictly on the `dir` side. -/
def candidates (ref : Client) (dir : Direction) (l : List Client) : List Client :=
  l.filter (fun c => decide (c.window ≠ ref.window) && sideOK dir ref c)

/-- The guard-free core of the scan loop: keep the new client iff strictly
closer than the current minimum. -/
def minStep (ref : Client) (acc : Int × Option Client) (c : Client) : Int × Option Client :=
  if sqDist c ref < acc.1 then (sqDist c ref, some c) else acc

/-- The default state with the four clients of the quadrant scenario:
windows 1..4 at (0,0), (150,0), (0,150), (150,150), each 100×100. -/
def fourClientState : State :=
  let s1 := stepState State.default (State.default.add_client 1 ⟨0, 0⟩ ⟨100, 100⟩)
  let s2 := stepState s1 (s1.add_client 2 ⟨150, 0⟩ ⟨100, 100⟩)
  let s3 := stepState s2 (s2.add_client 3 ⟨0, 150⟩ ⟨100, 100⟩)
  stepState s3 (s3.add_client 4 ⟨150, 150⟩ ⟨100, 100⟩)

section MapLemmas

variable {K V : Type} [DecidableEq K]

theorem mem_keysOf_insertKV (m : List (K × V)) (k a : K) (v : V) :
    a ∈ keysOf (insertKV m k v) → a ∈ keysOf m ∨ a = k := by
  induction m with
  | nil =>
    intro h
    simp only [insertKV, keysOf, List.map_cons, List.map_nil, List.mem_singleton] at h
    exact Or.inr h
  | cons hd tl ih =>
    rcases hd with ⟨k', v'⟩
    intro h
    by_cases hk : k' = k
    · simp only [insertKV, if_pos hk, keysOf, List.map_cons, List.mem_cons] at h ⊢
      rcases h with h | h
      · exact Or.inr h
      · exact Or.inl (Or.inr h)
    · simp only [insertKV, if_neg hk, keysOf, List.map_cons, List.mem_cons] at h ⊢
      rcases h with h | h
      · exact Or.inl (Or.inl h)
      · rcases ih h with h' | h'
        · exact Or.inl (Or.inr h')
        · exact Or.inr h'

theorem nodup_keysOf_insertKV (m : List (K × V)) (k : K) (v : V)
    (h : (keysOf m).Nodup) : (keysOf (insertKV m k v)).Nodup := by
  induction m with
  | nil => simp [insertKV, keysOf]
  | cons hd tl ih =>
    rcases hd with ⟨k', v'⟩
    simp only [keysOf, List.map_cons, List.nodup_cons] at h
    by_cases hk : k' = k
    · simp only [insertKV, if_pos hk]
      simp only [keysOf, List.map_cons, List.nodup_cons]
      exact ⟨hk ▸ h.1, h.2⟩
    · simp only [insertKV, if_neg hk]
      simp only [keysOf, List.map_cons, List.nodup_cons]
      refine ⟨fun hmem => ?_, ih h.2⟩
      rcases mem_keysOf_insertKV tl k k' v hmem with h' | h'
      · exact h.1 h'
      · exact hk h'

theorem nodup_keysOf_removeKey (m : List (K × V)) (k : K)
    (h : (keysOf m).Nodup) : (keysOf (removeKey m k)).Nodup := by
  have hsub : (removeKey m k).Sublist m := List.filter_sublist m
  exact (hsub.map Prod.fst).nodup h

theorem findEntry?_removeKey (m : List (K × V)) (k : K) :
    findEntry? (removeKey m k) k = none := by
  induction m with
  | nil => rfl
  | cons hd tl ih =>
    rcases hd with ⟨k', v'⟩
    by_cases hk : k' = k
    · simpa [removeKey, hk] using ih
    · simpa [removeKey, findEntry?, hk] using ih

theorem mem_insertKV (m : List (K × V)) (k : K) (v : V) (q : K × V) :
    q ∈ insertKV m k v → q ∈ m ∨ q = (k, v) := by
  induction m with
  | nil =>
    intro h
    simp [insertKV] at h
    exact Or.inr h
  | cons hd tl ih =>
    rcases hd with ⟨k', v'⟩
    intro h
    by_cases hk : k' = k
    · simp only [insertKV, if_pos hk] at h
      rcases List.mem_cons.mp h with h | h
      · exact Or.inr h
      · exact Or.inl (List.mem_cons.mpr (Or.inr h))
    · simp only [insertKV, if_neg hk] at h
      rcases List.mem_cons.mp h with h | h
      · exact Or.inl (List.mem_cons.mpr (Or.inl h))
      · rcases ih h with h' | h'
        · exact Or.inl (List.mem_cons.mpr (Or.inr h'))
        · exact Or.inr h'

end MapLemmas

theorem mem_of_mem_set {α : Type} (l : List α) (i : Nat) (a q : α) :
    q ∈ l.set i a → q ∈ l ∨ q = a := by
  induction l generalizing i with
  | nil => intro h; simp [List.set] at h
  | cons hd tl ih =>
    intro h
    cases i with
    | zero =>
      rcases List.mem_cons.mp h with h | h
      · exact Or.inr h
      · exact Or.inl (List.mem_cons.mpr (Or.inr h))
    | succ i =>
      rcases List.mem_cons.mp h with h | h
      · exact Or.inl (List.mem_cons.mpr (Or.inl h))
      · rcases ih i h with h' | h'
        · exact Or.inl (List.mem_cons.mpr (Or.inr h'))
        · exact Or.inr h'

theorem mem_of_mem_modifyAt {α : Type} (l : List α) (i : Nat) (f : α → α) (q : α) :
    q ∈ modifyAt l i f → q ∈ l ∨ ∃ p, l.get? i = some p ∧ q = f p := by
  induction l generalizing i with
  | nil => intro h; simp [modifyAt] at h
  | cons hd tl ih =>
    intro h
    cases i with
    | zero =>
      rcases List.mem_cons.mp h with h | h
      · exact Or.inr ⟨hd, rfl, h⟩
      · exact Or.inl (List.mem_cons.mpr (Or.inr h))
    | succ i =>
      rcases List.mem_cons.mp h with h | h
      · exact Or.inl (List.mem_cons.mpr (Or.inl h))
      · rcases ih i h with h' | ⟨p, hp, hq⟩
        · exact Or.inl (List.mem_cons.mpr (Or.inr h'))
        · exact Or.inr ⟨p, hp, hq⟩

theorem get?_modifyAt {α : Type} (l : List α) (i : Nat) (f : α → α) :
    (modifyAt l i f).get? i = (l.get? i).map f := by
  induction l generalizing i with
  | nil => cases i <;> rfl
  | cons hd tl ih =>
    cases i with
    | zero => rfl
    | succ i => simpa [modifyAt] using ih i

theorem activeClients_setActiveClients (s : State) (cs cs' : List (Window × Client))
    (h : s.activeWorkspaceClients? = some cs) :
    (s.setActiveClients cs').activeWorkspaceClients? = some cs' := by
  unfold State.activeWorkspaceClients? at h ⊢
  unfold State.setActiveClients
  rcases hg : s.workspaces.get? s.active_workspace with _ | p
  · rw [hg] at h; simp at h
  · simp only [get?_modifyAt, hg, Option.map_some']

/-- C1: the claim that a fresh registry starts with a workspace named "1" and
that two `add_workspace(None)` calls yield names "1","2","3" is false on the
code: default naming is `workspaces.len().to_string()`, which is 0-based, so
the fresh state's single workspace is named "0" and the sequence yields
"0","1","2". -/
theorem C1_counterexample :
    (State.default.workspaces_list.map Workspace.name = ["0"] ∧
      twoDefaultAdds.workspaces_list.map Workspace.name = ["0", "1", "2"]) ∧
    ¬(State.default.workspaces_list.map Workspace.name = ["1"] ∧
      twoDefaultAdds.workspaces_list.map Workspace.name = ["1", "2", "3"]) := by
  decide

/-- C1 (amended): workspace default naming is 0-based: a fresh registry state
starts with one workspace named "0", and calling `add_workspace(None)` twice
on that fresh state yields exactly three workspaces named "0", "1", "2" in
insertion order. -/
theorem C1_amended :
    State.default.workspaces_list.map Workspace.name = ["0"] ∧
    twoDefaultAdds.workspaces_list.map Workspace.name = ["0", "1", "2"] := by
  decide

/-- C3: on the default one-workspace state, `activate_workspace` with the
out-of-range selector `Index(5)` does not fail with `WorkspaceNotFound`: it
returns `Ok(5)` and sets `active_workspace := 5`, after which the
active-workspace lookup panics (modelled as `none`) — contradicting the
code's own "we can unwrap here because we know the workspace exists"
invariant.  The `Name` half of the claim does hold, as also evaluated here. -/
theorem C3_code_eval :
    State.default.activate_workspace (.index 5) =
      ({ State.default with active_workspace := 5 }, .ok 5) ∧
    ({ State.default with active_workspace := 5 } : State).activeWorkspaceClients? = none ∧
    State.default.activate_workspace (.name "x") =
      (State.default, .error .workspaceNotFound) := by
  decide

/-- C4: renaming workspace "A" to "0" — a name already used by the other
workspace — does not fail: `rename_workspace` performs no collision check,
returns `Ok`, and leaves the registry with two workspaces both named "0"
(duplicate keys in the ordered map). -/
theorem C4_code_eval :
    (stateWithTwoWorkspaces.rename_workspace (.name "A") "0").2 = .ok () ∧
    (stateWithTwoWorkspaces.rename_workspace (.name "A") "0").1.workspaces_list.map
        Workspace.name = ["0", "0"] ∧
    keysOf (stateWithTwoWorkspaces.rename_workspace (.name "A") "0").1.workspaces =
      ["0", "0"] := by
  decide

/-- C7: for every client present in the active workspace and every mouse
position, `drag_resize_client` sets the client's size to
`max(mouse_pos - client.pos, (32, 32))` componentwise, so neither component
of the result is below 32; in particular a 100×100 client at (0,0) resized
with mouse position (0,0) gets size exactly (32,32). -/
theorem C7_drag_resize :
    (∀ (s : State) (w : Window) (mouse : Vector2D) (cs : List (Window × Client)) (c : Client),
      s.activeWorkspaceClients? = some cs → findEntry? cs w = some c →
      ∃ s', s.drag_resize_client w mouse =
          some (s', .ok { c with size := (mouse - c.pos).max MIN_CLIENT_SIZE }) ∧
        32 ≤ ((mouse - c.pos).max MIN_CLIENT_SIZE).x ∧
        32 ≤ ((mouse - c.pos).max MIN_CLIENT_SIZE).y ∧
        s'.activeWorkspaceClients? =
          some (insertKV cs w { c with size := (mouse - c.pos).max MIN_CLIENT_SIZE })) ∧
    ((stateWithClient.drag_resize_client 123 ⟨0, 0⟩).map
        (fun p => (okClient? p.2).map Client.size)) = some (some ⟨32, 32⟩) := by
  constructor
  · intro s w mouse cs c hcs hc
    have hmain : s.drag_resize_client w mouse =
        some (s.setActiveClients (insertKV cs w { c with size := (mouse - c.pos).max MIN_CLIENT_SIZE }),
          .ok { c with size := (mouse - c.pos).max MIN_CLIENT_SIZE }) := by
      simp only [State.drag_resize_client, hcs, hc]
    refine ⟨_, hmain, ?_, ?_, activeClients_setActiveClients s cs _ hcs⟩
    · exact le_max_right _ _
    · exact le_max_right _ _
  · decide

/-- C7 witness: the general statement applied to the concrete one-client
state with the mouse at the client's origin. -/
theorem C7_drag_resize_witness :
    (stateWithClient.drag_resize_client 123 ⟨0, 0⟩).isSome = true := by
  obtain ⟨s', h, _, _, _⟩ :=
    C7_drag_resize.1 stateWithClient 123 ⟨0, 0⟩ [(123, ⟨123, ⟨0, 0⟩, ⟨100, 100⟩⟩)]
      ⟨123, ⟨0, 0⟩, ⟨100, 100⟩⟩ rfl rfl
  rw [h]; rfl

/-- C8: removing the currently focused window deletes it from the active
workspace and clears `focused` to `None` while leaving `last_focused`
untouched; removing a window absent from the active workspace fails with
`ClientNotFound`. -/
theorem C8_remove_focused :
    ∀ (s : State) (w : Window) (cs : List (Window × Client)),
      s.activeWorkspaceClients? = some cs →
      ((containsKey cs w = true → s.focused = some w →
        ∃ s', s.remove_client w = some (s', .ok ()) ∧ s'.focused = none ∧
          s'.last_focused = s.last_focused ∧
          s'.activeWorkspaceClients? = some (removeKey cs w) ∧
          containsKey (removeKey cs w) w = false) ∧
      (containsKey cs w = false → s.remove_client w = some (s, .error .clientNotFound))) := by
  intro s w cs hcs
  constructor
  · intro hmem hfoc
    have hrc : s.remove_client w =
        some ({ s.setActiveClients (removeKey cs w) with focused := none }, .ok ()) := by
      simp only [State.remove_client, hcs, hmem, hfoc, if_true, if_pos rfl]
    refine ⟨_, hrc, rfl, rfl, ?_, ?_⟩
    · exact activeClients_setActiveClients s cs _ hcs
    · simp only [containsKey, findEntry?_removeKey, Option.isSome_none]
  · intro hmem
    simp only [State.remove_client, hcs, hmem, Bool.false_eq_true, if_false]

/-- C8 witness: removing the focused client 123 from the concrete one-client
state clears focus and preserves `last_focused`. -/
theorem C8_remove_focused_witness :
    ((stepState stateWithClient (stateWithClient.focus_client 123)).remove_client 123).map
        (fun p => (p.1.focused, p.1.last_focused)) =
      some (none, (stepState stateWithClient (stateWithClient.focus_client 123)).last_focused) := by
  obtain ⟨s', h, hf, hl, _, _⟩ :=
    (C8_remove_focused (stepState stateWithClient (stateWithClient.focus_client 123)) 123
      [(123, ⟨123, ⟨0, 0⟩, ⟨100, 100⟩⟩)] rfl).1 rfl rfl
  rw [h]
  simp [hf, hl]

/-- C10: focusing the root window goes through `set_focused(None)`, which
clears `focused` and rotates the previously focused window into
`last_focused`; by contrast `remove_client` never touches `last_focused`. -/
theorem C10_root_unfocus :
    ∀ s : State,
      s.focus_client s.root =
        some ({ s with last_focused := s.focused, focused := none }, .ok ()) ∧
      ∀ (w : Window) (r : State × Except Error Unit),
        s.remove_client w = some r → r.1.last_focused = s.last_focused := by
  intro s
  constructor
  · simp [State.focus_client, State.set_focused]
  · intro w r h
    unfold State.remove_client at h
    rcases hcs : s.activeWorkspaceClients? with _ | cs
    · rw [hcs] at h; cases h
    · rw [hcs] at h
      dsimp only at h
      split at h
      · split at h <;> (cases h; rfl)
      · cases h; rfl

/-- C10 witness: the root-unfocus equation applied at the concrete state, and
the `remove_client` half applied to a concrete failing removal. -/
theorem C10_root_unfocus_witness :
    rootFocusState.focus_client rootFocusState.root =
      some ({ rootFocusState with last_focused := rootFocusState.focused, focused := none },
        .ok ()) ∧
    (rootFocusState, (Except.error Error.clientNotFound : Except Error Unit)).1.last_focused =
      rootFocusState.last_focused := by
  refine ⟨(C10_root_unfocus rootFocusState).1, ?_⟩
  exact (C10_root_unfocus rootFocusState).2 5 (rootFocusState, .error .clientNotFound) (by rfl)

/-- C9: the IPC serialization round-trips — deserializing the serialization
of any `Command` value reconstructs an equal value; in particular for
`Command::Focus { selector: Window(42) }`. -/
theorem C9_ipc_roundtrip :
    (∀ c : cmds.Command, deserializeCommand (serializeCommand c) = some c) ∧
    deserializeCommand (serializeCommand (.focus (.window 42))) =
      some (.focus (.window 42)) := by
  constructor
  · intro c
    cases c with
    | quit => rfl
    | focus sel =>
      cases sel with
      | focused => rfl
      | window id => rfl
      | closest d => cases d <;> rfl
      | cycle d => cases d <;> rfl
    | close sel =>
      cases sel with
      | focused => rfl
      | window id => rfl
      | closest d => cases d <;> rfl
      | cycle d => cases d <;> rfl
    | addWorkspace name => cases name <;> rfl
    | renameWorkspace sel name =>
      cases sel with
      | index i => rfl
      | name n => rfl
      | cycle d => cases d <;> rfl
    | activateWorkspace sel =>
      cases sel with
      | index i => rfl
      | name n => rfl
      | cycle d => cases d <;> rfl
    | setBorderWidth w => rfl
    | setBorderColor c => rfl
    | setFocusedBorderColor c => rfl
  · rfl

/-- C5: the claim that every registry error raised while applying a non-Quit
command is logged and never escapes the handler is false: the `AddWorkspace`
arm applies `?` to `State::add_workspace`, so adding a workspace whose name
collides (here "0", the default workspace's name) propagates
`WorkspaceAlreadyExists` out of the handler as a fatal error. -/
theorem C5_counterexample :
    applyCommand State.default (.addWorkspace (some "0")) =
      some (State.default, .fatal .workspaceAlreadyExists) := by
  decide

/-- C5 (amended): registry errors raised by the `FocusClosest` and `Close`
arms are logged and never propagate as fatal, but the `AddWorkspace`,
`RenameWorkspace` and `SelectWorkspace` arms propagate their registry errors
out of the handler with `?` as fatal errors. -/
theorem C5_amended :
    (∀ (s : State) (sel : WindowSelector) (dir : Direction) (s' : State) (o : HandlerOutcome),
      applyCommand s (.focusClosest sel dir) = some (s', o) →
      ∀ e, o ≠ HandlerOutcome.fatal e) ∧
    (∀ (s : State) (sel : WindowSelector) (s' : State) (o : HandlerOutcome),
      applyCommand s (.close sel) = some (s', o) → ∀ e, o ≠ HandlerOutcome.fatal e) ∧
    (∀ (s : State) (name : Option String) (s' : State) (e : Error),
      s.add_workspace name = (s', .error e) →
      applyCommand s (.addWorkspace name) = some (s', .fatal e)) ∧
    (∀ (s : State) (sel : WorkspaceSelector) (name : String) (s' : State) (e : Error),
      s.rename_workspace sel name = (s', .error e) →
      applyCommand s (.renameWorkspace sel name) = some (s', .fatal e)) ∧
    (∀ (s : State) (sel : WorkspaceSelector) (s' : State) (e : Error)
      (cs : List (Window × Client)),
      s.activeWorkspaceClients? = some cs →
      s.activate_workspace sel = (s', .error e) →
      applyCommand s (.selectWorkspace sel) = some (s', .fatal e)) := by
  refine ⟨?_, ?_, ?_, ?_, ?_⟩
  · intro s sel dir s' o h e
    simp only [applyCommand] at h
    rcases hfc : s.focus_closest_client sel dir with _ | ⟨s1, r⟩
    · rw [hfc] at h; cases h
    · rw [hfc] at h
      cases r with
      | error e1 => cases h; simp
      | ok v => cases h; simp
  · intro s sel s' o h e
    simp only [applyCommand] at h
    rcases hsc : s.select_client sel with _ | r
    · rw [hsc] at h; cases h
    · rw [hsc] at h
      cases r with
      | error e1 => cases h; simp
      | ok v => cases h; simp
  · intro s name s' e hreg
    simp only [applyCommand, hreg]
  · intro s sel name s' e hreg
    simp only [applyCommand, hreg]
  · intro s sel s' e cs hcs hreg
    simp only [applyCommand, hcs, hreg]

/-- C5 witness: the amended statement applied to concrete commands — a
`FocusClosest` whose selector fails produces a logged (non-fatal) outcome,
and a `RenameWorkspace` of a missing workspace produces a fatal
`WorkspaceNotFound`. -/
theorem C5_amended_witness :
    HandlerOutcome.logged Error.clientNotFound ≠ HandlerOutcome.fatal Error.clientNotFound ∧
    applyCommand State.default (.renameWorkspace (.name "zz") "a") =
      some (State.default, .fatal .workspaceNotFound) := by
  constructor
  · exact C5_amended.1 State.default .focused .east State.default
      (.logged .clientNotFound) (by rfl) .clientNotFound
  · exact C5_amended.2.2.2.1 State.default (.name "zz") "a" State.default
      .workspaceNotFound (by decide)

theorem clientKeysNodup_of_workspaces_eq (s s' : State)
    (hws : s'.workspaces = s.workspaces) (h : ClientKeysNodup s) : ClientKeysNodup s' := by
  intro p hp
  rw [hws] at hp
  exact h p hp

theorem activeClients_nodup (s : State) (cs : List (Window × Client))
    (h : ClientKeysNodup s) (hcs : s.activeWorkspaceClients? = some cs) :
    (keysOf cs).Nodup := by
  unfold State.activeWorkspaceClients? at hcs
  rcases hg : s.workspaces.get? s.active_workspace with _ | p
  · rw [hg] at hcs; cases hcs
  · rw [hg] at hcs
    cases hcs
    exact h p (List.get?_mem hg)

theorem clientKeysNodup_setActiveClients (s : State) (cs' : List (Window × Client))
    (h : ClientKeysNodup s) (hcs' : (keysOf cs').Nodup) :
    ClientKeysNodup (s.setActiveClients cs') := by
  intro p hp
  unfold State.setActiveClients at hp
  simp only at hp
  rcases mem_of_mem_modifyAt _ _ _ _ hp with h' | ⟨q, _, rfl⟩
  · exact h p h'
  · exact hcs'

theorem add_workspace_preserves_nodup (s : State) (name : Option String)
    (h : ClientKeysNodup s) : ClientKeysNodup (s.add_workspace name).1 := by
  unfold State.add_workspace
  dsimp only
  split
  · exact h
  · intro p hp
    rcases mem_insertKV _ _ _ _ hp with h' | rfl
    · exact h p h'
    · simp [keysOf]

theorem rename_workspace_preserves_nodup (s : State) (sel : WorkspaceSelector)
    (name : String) (h : ClientKeysNodup s) :
    ClientKeysNodup (s.rename_workspace sel name).1 := by
  unfold State.rename_workspace
  have hfound : ∀ (i : Nat) (p : String × Workspace), s.workspaces.get? i = some p →
      ClientKeysNodup (({ s with workspaces := s.workspaces.set i (name, { p.2 with name := name }) } : State)) := by
    intro i p hg q hq
    simp only at hq
    rcases mem_of_mem_set _ _ _ _ hq with h' | rfl
    · exact h q h'
    · exact h p (List.get?_mem hg)
  rcases sel with i | n
  · dsimp only
    rcases hg : s.workspaces.get? i with _ | p
    · exact h
    · exact hfound i p hg
  · dsimp only
    rcases hio : indexOfKey s.workspaces n with _ | i
    · exact h
    · simp only [Option.some_bind]
      rcases hg : s.workspaces.get? i with _ | p
      · exact h
      · exact hfound i p hg

theorem activate_workspace_preserves_nodup (s : State) (sel : WorkspaceSelector)
    (h : ClientKeysNodup s) : ClientKeysNodup (s.activate_workspace sel).1 := by
  unfold State.activate_workspace
  rcases sel with i | n
  · exact fun p hp => h p hp
  · dsimp only
    rcases hio : indexOfKey s.workspaces n with _ | i
    · exact h
    · exact fun p hp => h p hp

theorem add_client_preserves_nodup (s : State) (w : Window) (pos size : Vector2D)
    (s' : State) (r : Except Error Client) (heq : s.add_client w pos size = some (s', r))
    (h : ClientKeysNodup s) : ClientKeysNodup s' := by
  unfold State.add_client at heq
  rcases hcs : s.activeWorkspaceClients? with _ | cs
  · rw [hcs] at heq; cases heq
  · rw [hcs] at heq
    dsimp only at heq
    split at heq
    · cases heq; exact h
    · cases heq
      exact clientKeysNodup_setActiveClients s _ h
        (nodup_keysOf_insertKV cs w _ (activeClients_nodup s cs h hcs))

theorem remove_client_preserves_nodup (s : State) (w : Window)
    (s' : State) (r : Except Error Unit) (heq : s.remove_client w = some (s', r))
    (h : ClientKeysNodup s) : ClientKeysNodup s' := by
  unfold State.remove_client at heq
  rcases hcs : s.activeWorkspaceClients? with _ | cs
  · rw [hcs] at heq; cases heq
  · rw [hcs] at heq
    dsimp only at heq
    split at heq
    · split at heq
      · cases heq
        intro p hp
        exact clientKeysNodup_setActiveClients s _ h
          (nodup_keysOf_removeKey cs w (activeClients_nodup s cs h hcs)) p hp
      · cases heq
        exact clientKeysNodup_setActiveClients s _ h
          (nodup_keysOf_removeKey cs w (activeClients_nodup s cs h hcs))
    · cases heq; exact h

theorem drag_client_preserves_nodup (s : State) (w : Window) (m : Vector2D)
    (s' : State) (r : Except Error Client) (heq : s.drag_client w m = some (s', r))
    (h : ClientKeysNodup s) : ClientKeysNodup s' := by
  unfold State.drag_client at heq
  rcases hcs : s.activeWorkspaceClients? with _ | cs
  · rw [hcs] at heq; cases heq
  · rw [hcs] at heq
    dsimp only at heq
    rcases hfe : findEntry? cs w with _ | c
    · rw [hfe] at heq; cases heq; exact h
    · rw [hfe] at heq
      cases heq
      exact clientKeysNodup_setActiveClients s _ h
        (nodup_keysOf_insertKV cs w _ (activeClients_nodup s cs h hcs))

theorem drag_resize_client_preserves_nodup (s : State) (w : Window) (m : Vector2D)
    (s' : State) (r : Except Error Client) (heq : s.drag_resize_client w m = some (s', r))
    (h : ClientKeysNodup s) : ClientKeysNodup s' := by
  unfold State.drag_resize_client at heq
  rcases hcs : s.activeWorkspaceClients? with _ | cs
  · rw [hcs] at heq; cases heq
  · rw [hcs] at heq
    dsimp only at heq
    rcases hfe : findEntry? cs w with _ | c
    · rw [hfe] at heq; cases heq; exact h
    · rw [hfe] at heq
      cases heq
      exact clientKeysNodup_setActiveClients s _ h
        (nodup_keysOf_insertKV cs w _ (activeClients_nodup s cs h hcs))

theorem teleport_client_preserves_nodup (s : State) (w : Window) (p : Vector2D)
    (s' : State) (r : Except Error Client) (heq : s.teleport_client w p = some (s', r))
    (h : ClientKeysNodup s) : ClientKeysNodup s' := by
  unfold State.teleport_client at heq
  rcases hcs : s.activeWorkspaceClients? with _ | cs
  · rw [hcs] at heq; cases heq
  · rw [hcs] at heq
    dsimp only at heq
    rcases hfe : findEntry? cs w with _ | c
    · rw [hfe] at heq; cases heq; exact h
    · rw [hfe] at heq
      cases heq
      exact clientKeysNodup_setActiveClients s _ h
        (nodup_keysOf_insertKV cs w _ (activeClients_nodup s cs h hcs))

theorem focus_client_workspaces_eq (s : State) (w : Window) (s' : State)
    (r : Except Error Unit) (heq : s.focus_client w = some (s', r)) :
    s'.workspaces = s.workspaces := by
  unfold State.focus_client at heq
  split at heq
  · cases heq; rfl
  · rcases hcs : s.activeWorkspaceClients? with _ | cs
    · rw [hcs] at heq; cases heq
    · rw [hcs] at heq
      dsimp only at heq
      split at heq
      · cases heq; rfl
      · cases heq; rfl

theorem focus_closest_client_workspaces_eq (s : State) (sel : WindowSelector)
    (dir : Direction) (s' : State) (r : Except Error (Option Client))
    (heq : s.focus_closest_client sel dir = some (s', r)) :
    s'.workspaces = s.workspaces := by
  unfold State.focus_closest_client at heq
  rcases hsc : s.select_client sel with _ | rc
  · rw [hsc] at heq; cases heq
  · rw [hsc] at heq
    cases rc with
    | error e => cases heq; rfl
    | ok client =>
      dsimp only at heq
      rcases hcs : s.activeWorkspaceClients? with _ | cs
      · rw [hcs] at heq; cases heq
      · rw [hcs] at heq
        dsimp only at heq
        split at heq
        · cases heq; rfl
        · cases heq; rfl

/-- C2 (amended): for every reachable registry state, every single
workspace's client map contains each window identifier at most once. -/
theorem C2_client_unique_per_map :
    ∀ s : State, Reachable s → ClientKeysNodup s := by
  intro s h
  induction h with
  | default_state => unfold ClientKeysNodup; decide
  | add_workspace s name _ ih => exact add_workspace_preserves_nodup s name ih
  | rename_workspace s sel name _ ih => exact rename_workspace_preserves_nodup s sel name ih
  | activate_workspace s sel _ ih => exact activate_workspace_preserves_nodup s sel ih
  | add_client s w pos size s' r _ heq ih => exact add_client_preserves_nodup s w pos size s' r heq ih
  | remove_client s w s' r _ heq ih => exact remove_client_preserves_nodup s w s' r heq ih
  | drag_client s w m s' r _ heq ih => exact drag_client_preserves_nodup s w m s' r heq ih
  | drag_resize_client s w m s' r _ heq ih =>
    exact drag_resize_client_preserves_nodup s w m s' r heq ih
  | teleport_client s w p s' r _ heq ih => exact teleport_client_preserves_nodup s w p s' r heq ih
  | focus_client s w s' r _ heq ih =>
    exact clientKeysNodup_of_workspaces_eq s s' (focus_client_workspaces_eq s w s' r heq) ih
  | focus_closest_client s sel dir s' r _ heq ih =>
    exact clientKeysNodup_of_workspaces_eq s s'
      (focus_closest_client_workspaces_eq s sel dir s' r heq) ih
  | set_drag_start s p q _ ih => exact fun x hx => ih x hx

/-- C2 witness: the per-map uniqueness applied at the default state and its
single workspace. -/
theorem C2_client_unique_per_map_witness :
    (keysOf (Workspace.mk "0" []).clients).Nodup :=
  C2_client_unique_per_map State.default Reachable.default_state
    ("0", Workspace.mk "0" []) (by decide)

/-- C2: the cross-workspace half of the claim is false: `add_client` only
consults the *active* workspace, so after switching workspaces the same
window identifier 7 can be inserted a second time, leaving it present in the
client maps of both workspace 0 and workspace 1 of a reachable state. -/
theorem C2_counterexample :
    Reachable c2sD ∧
    ((c2sD.workspaces.get? 0).map fun p => containsKey p.2.clients 7) = some true ∧
    ((c2sD.workspaces.get? 1).map fun p => containsKey p.2.clients 7) = some true := by
  refine ⟨?_, by decide, by decide⟩
  have h1 : Reachable c2sA :=
    Reachable.add_workspace State.default (some "A") Reachable.default_state
  have h2 : Reachable c2sB :=
    Reachable.add_client c2sA 7 ⟨0, 0⟩ ⟨10, 10⟩ c2sB (.ok ⟨7, ⟨0, 0⟩, ⟨10, 10⟩⟩) h1 (by decide)
  have h3 : Reachable c2sC := Reachable.activate_workspace c2sB (.index 1) h2
  exact Reachable.add_client c2sC 7 ⟨1, 1⟩ ⟨10, 10⟩ c2sD (.ok ⟨7, ⟨1, 1⟩, ⟨10, 10⟩⟩) h3 (by decide)

theorem closestStep_eq_of_candidate (ref : Client) (dir : Direction)
    (acc : Int × Option Client) (c : Client) (h1 : ¬c.window = ref.window)
    (h2 : sideOK dir ref c = true) : closestStep ref dir acc c = minStep ref acc c := by
  cases dir <;>
    (simp only [sideOK, decide_eq_true_eq] at h2
     simp only [closestStep, minStep, if_neg h1]
     rw [if_congr (and_iff_right h2) rfl rfl])

theorem closestStep_eq_of_offside (ref : Client) (dir : Direction)
    (acc : Int × Option Client) (c : Client) (h2 : sideOK dir ref c = false) :
    closestStep ref dir acc c = acc := by
  by_cases h1 : c.window = ref.window
  · cases dir <;> simp only [closestStep, if_pos h1]
  · cases dir <;>
      (simp only [sideOK, decide_eq_false_iff_not] at h2
       simp only [closestStep, if_neg h1]
       rw [if_neg (fun hc => h2 hc.1)])

theorem closestStep_eq_of_self (ref : Client) (dir : Direction)
    (acc : Int × Option Client) (c : Client) (h1 : c.window = ref.window) :
    closestStep ref dir acc c = acc := by
  simp only [closestStep, if_pos h1]

theorem foldl_closestStep_eq_filter (ref : Client) (dir : Direction) :
    ∀ (l : List Client) (acc : Int × Option Client),
      l.foldl (closestStep ref dir) acc = (candidates ref dir l).foldl (minStep ref) acc := by
  intro l
  induction l with
  | nil => intro acc; rfl
  | cons c t ih =>
    intro acc
    by_cases h1 : c.window = ref.window
    · have hpred : (decide (c.window ≠ ref.window) && sideOK dir ref c) = false := by
        simp [h1]
      simp only [List.foldl_cons, candidates, List.filter_cons, hpred]
      rw [closestStep_eq_of_self ref dir acc c h1]
      exact ih acc
    · rcases hside : sideOK dir ref c with _ | _
      · have hpred : (decide (c.window ≠ ref.window) && sideOK dir ref c) = false := by
          simp [hside]
        simp only [List.foldl_cons, candidates, List.filter_cons, hpred]
        rw [closestStep_eq_of_offside ref dir acc c hside]
        exact ih acc
      · have hpred : (decide (c.window ≠ ref.window) && sideOK dir ref c) = true := by
          simp [h1, hside]
        simp only [List.foldl_cons, candidates, List.filter_cons, hpred]
        rw [closestStep_eq_of_candidate ref dir acc c h1 hside]
        exact ih (minStep ref acc c)

theorem minFold_from_some (ref : Client) :
    ∀ (l : List Client) (c0 : Client),
      ∃ c, l.foldl (minStep ref) (sqDist c0 ref, some c0) = (sqDist c ref, some c) ∧
        ((c = c0 ∧ ∀ x ∈ l, sqDist c0 ref ≤ sqDist x ref) ∨
          (∃ l1 l2, l = l1 ++ c :: l2 ∧ sqDist c ref < sqDist c0 ref ∧
            (∀ x ∈ l1, sqDist c ref < sqDist x ref) ∧
            (∀ x ∈ l, sqDist c ref ≤ sqDist x ref))) := by
  intro l
  induction l with
  | nil =>
    intro c0
    exact ⟨c0, rfl, Or.inl ⟨rfl, by simp⟩⟩
  | cons a t ih =>
    intro c0
    by_cases hlt : sqDist a ref < sqDist c0 ref
    · have hstep : minStep ref (sqDist c0 ref, some c0) a = (sqDist a ref, some a) := by
        simp [minStep, hlt]
      rcases ih a with ⟨c, hfold, hcase⟩
      refine ⟨c, by rw [List.foldl_cons, hstep]; exact hfold, Or.inr ?_⟩
      rcases hcase with ⟨rfl, hmin⟩ | ⟨l1, l2, ht, hlt2, hbefore, hall⟩
      · refine ⟨[], t, rfl, hlt, by simp, ?_⟩
        intro x hx
        rcases List.mem_cons.mp hx with rfl | hx
        · exact le_refl _
        · exact hmin x hx
      · refine ⟨a :: l1, l2, by rw [ht]; rfl, lt_trans hlt2 hlt, ?_, ?_⟩
        · intro x hx
          rcases List.mem_cons.mp hx with rfl | hx
          · exact hlt2
          · exact hbefore x hx
        · intro x hx
          rcases List.mem_cons.mp hx with rfl | hx
          · exact le_of_lt hlt2
          · exact hall x hx
    · have hstep : minStep ref (sqDist c0 ref, some c0) a = (sqDist c0 ref, some c0) := by
        simp [minStep, hlt]
      have hge : sqDist c0 ref ≤ sqDist a ref := not_lt.mp hlt
      rcases ih c0 with ⟨c, hfold, hcase⟩
      refine ⟨c, by rw [List.foldl_cons, hstep]; exact hfold, ?_⟩
      rcases hcase with ⟨rfl, hmin⟩ | ⟨l1, l2, ht, hlt2, hbefore, hall⟩
      · refine Or.inl ⟨rfl, ?_⟩
        intro x hx
        rcases List.mem_cons.mp hx with rfl | hx
        · exact hge
        · exact hmin x hx
      · refine Or.inr ⟨a :: l1, l2, by rw [ht]; rfl, hlt2, ?_, ?_⟩
        · intro x hx
          rcases List.mem_cons.mp hx with rfl | hx
          · exact lt_of_lt_of_le hlt2 hge
          · exact hbefore x hx
        · intro x hx
          rcases List.mem_cons.mp hx with rfl | hx
          · exact le_of_lt (lt_of_lt_of_le hlt2 hge)
          · exact hall x hx

theorem minFold_from_none (ref : Client) (l : List Client) (m : Int)
    (hbound : ∀ x ∈ l, sqDist x ref < m) :
    (l = [] ∧ l.foldl (minStep ref) (m, none) = (m, none)) ∨
    (∃ c l1 l2, l = l1 ++ c :: l2 ∧
      (∀ x ∈ l1, sqDist c ref < sqDist x ref) ∧
      (∀ x ∈ l, sqDist c ref ≤ sqDist x ref) ∧
      l.foldl (minStep ref) (m, none) = (sqDist c ref, some c)) := by
  cases l with
  | nil => exact Or.inl ⟨rfl, rfl⟩
  | cons a t =>
    have ha : sqDist a ref < m := hbound a (List.mem_cons_self a t)
    have hstep : minStep ref (m, none) a = (sqDist a ref, some a) := by
      simp [minStep, ha]
    rcases minFold_from_some ref t a with ⟨c, hfold, hcase⟩
    have hfold' : (a :: t).foldl (minStep ref) (m, none) = (sqDist c ref, some c) := by
      rw [List.foldl_cons, hstep]; exact hfold
    rcases hcase with ⟨rfl, hmin⟩ | ⟨l1, l2, ht, hlt, hbefore, hall⟩
    · refine Or.inr ⟨c, [], t, rfl, by simp, ?_, hfold'⟩
      intro x hx
      rcases List.mem_cons.mp hx with rfl | hx
      · exact le_refl _
      · exact hmin x hx
    · refine Or.inr ⟨c, a :: l1, l2, by rw [ht]; rfl, ?_, ?_, hfold'⟩
      · intro x hx
        rcases List.mem_cons.mp hx with rfl | hx
        · exact hlt
        · exact hbefore x hx
      · intro x hx
        rcases List.mem_cons.mp hx with rfl | hx
        · exact le_of_lt hlt
        · exact hall x hx

/-- C6: when the selector resolves to a reference client of the active
workspace and no candidate's squared distance reaches the `i32::MAX`
sentinel, `focus_closest_client` either finds no client strictly on the
`direction` side of the reference and returns `Ok(None)` leaving the state
(and so the focus) unchanged, or returns the candidate with minimal squared
Euclidean distance — ties broken by first encountered in the workspace
map's insertion order — and focuses it, rotating the previous focus into
`last_focused`. -/
theorem C6_focus_closest :
    ∀ (s : State) (sel : WindowSelector) (dir : Direction) (ref : Client)
      (cs : List (Window × Client)),
      s.activeWorkspaceClients? = some cs →
      s.select_client sel = some (.ok ref) →
      (∀ c ∈ candidates ref dir (cs.map Prod.snd), sqDist c ref < i32Max) →
      (candidates ref dir (cs.map Prod.snd) = [] ∧
        s.focus_closest_client sel dir = some (s, .ok none)) ∨
      (∃ c l1 l2, candidates ref dir (cs.map Prod.snd) = l1 ++ c :: l2 ∧
        (∀ x ∈ l1, sqDist c ref < sqDist x ref) ∧
        (∀ x ∈ candidates ref dir (cs.map Prod.snd), sqDist c ref ≤ sqDist x ref) ∧
        s.focus_closest_client sel dir =
          some ({ s with last_focused := s.focused, focused := some c.window },
            .ok (some c))) := by
  intro s sel dir ref cs hcs href hbound
  have hunfold : s.focus_closest_client sel dir =
      match ((candidates ref dir (cs.map Prod.snd)).foldl (minStep ref) (i32Max, none)).2 with
      | none => some (s, .ok none)
      | some closest => some (s.set_focused (some closest.window), .ok (some closest)) := by
    unfold State.focus_closest_client
    rw [href]
    dsimp only
    rw [hcs]
    dsimp only
    rw [foldl_closestStep_eq_filter]
  rcases minFold_from_none ref (candidates ref dir (cs.map Prod.snd)) i32Max hbound with
    ⟨hnil, hfold⟩ | ⟨c, l1, l2, hsplit, hbefore, hall, hfold⟩
  · left
    refine ⟨hnil, ?_⟩
    rw [hunfold, hfold]
  · right
    refine ⟨c, l1, l2, hsplit, hbefore, hall, ?_⟩
    rw [hunfold, hfold]
    rfl

/-- C6 witness: the characterization applied to the concrete four-client
state, scanning east from window 1. -/
theorem C6_focus_closest_witness :
    (fourClientState.focus_closest_client (.window 1) .east).isSome = true := by
  have h := C6_focus_closest fourClientState (.window 1) .east ⟨1, ⟨0, 0⟩, ⟨100, 100⟩⟩
    [(1, ⟨1, ⟨0, 0⟩, ⟨100, 100⟩⟩), (2, ⟨2, ⟨150, 0⟩, ⟨100, 100⟩⟩),
      (3, ⟨3, ⟨0, 150⟩, ⟨100, 100⟩⟩), (4, ⟨4, ⟨150, 150⟩, ⟨100, 100⟩⟩)]
    rfl rfl (by decide)
  rcases h with ⟨_, heq⟩ | ⟨c, l1, l2, _, _, _, heq⟩ <;> rw [heq] <;> rfl

end Toniowm
